import Mathlib

/-!
Verification of the image-editor core of this repository against its design
specification.  The development shallowly embeds the client script:

* the grain pass (source function generateGrain) as a transformation of the
  flat RGBA byte buffer of an ImageData object, with the clamped 8-bit store
  of a Uint8ClampedArray made explicit (toUint8Clamped, ECMAScript ToUint8Clamp);
* the render pipeline background step (source function render) over a functional
  canvas model, with drawImage modelled as rectangle copy with nearest-neighbour
  resampling, the CSS blur filter kept abstract as a parameter, and canvases at
  display resolution (the case where the source image respects the maximum-width
  constraint, so that display size equals intrinsic size);
* the editor controller (source functions handleFile, removeBackground,
  setupEventListeners handlers, setLoading, enableControls) as a deterministic
  step function over an explicit state record, driven by discrete events: the
  synchronous part of a file selection, completion of an image decode,
  blur and grain slider inputs, and resolution, rejection and cutout-image
  load completion of a background-removal request.  Asynchronous completions
  are separate events so that any interleaving the event loop can produce is a
  trace of the model.  Identifiers (files, decoded images, cutouts) are drawn
  from the file that produced them; bookkeeping that no claim mentions
  (object URLs, the download file name, canvas sizing on upload) is omitted.
  The state carries observation fields (a count of user notices, a count of
  issued removal requests, and a log of composited frames) that record exactly
  the alert calls, fetch calls and render calls of the source.
-/

namespace WebImageEditor

/-! ## The grain pass (source function generateGrain) -/

/-- Round half to even, the rounding mode of the ECMAScript ToUint8Clamp
operation used by Uint8ClampedArray stores. -/
def roundHalfEven (q : ℚ) : ℤ :=
  if q - ⌊q⌋ < 1/2 then ⌊q⌋
  else if (1 : ℚ)/2 < q - ⌊q⌋ then ⌊q⌋ + 1
  else if 2 ∣ ⌊q⌋ then ⌊q⌋ else ⌊q⌋ + 1

/-- The clamped 8-bit store of a Uint8ClampedArray: values at most 0 store as 0,
values at least 255 store as 255, anything else rounds half to even. -/
def toUint8Clamped (q : ℚ) : ℕ :=
  if q ≤ 0 then 0
  else if 255 ≤ q then 255
  else (roundHalfEven q).toNat

/-- The noise value the grain loop computes on its k-th iteration:
(Math.random() - 0.5) * strength with strength = intensity * 2.55, where
rand k models the k-th Math.random() result. -/
def noiseVal (rand : ℕ → ℚ) (intensity : ℚ) (k : ℕ) : ℚ :=
  (rand k - 1/2) * (intensity * 2.55)

/-- The loop of generateGrain over the flat RGBA data array: for each pixel
(four consecutive entries) one noise value is drawn and added to the first
three channels through the clamped store; the fourth entry is not written.
ImageData buffers always have length a multiple of four; a ragged tail is
left unchanged. -/
def grainLoop (rand : ℕ → ℚ) (strength : ℚ) : ℕ → List ℕ → List ℕ
  | k, r :: g :: b :: a :: rest =>
    let noise := (rand k - 1/2) * strength
    toUint8Clamped ((r : ℚ) + noise) :: toUint8Clamped ((g : ℚ) + noise) ::
      toUint8Clamped ((b : ℚ) + noise) :: a :: grainLoop rand strength (k + 1) rest
  | _, data => data

/-- Source function generateGrain: getImageData / putImageData round-trip
modelled as the transformation of the underlying data array.  strength is
intensity * 2.55 exactly as in the source. -/
def generateGrain (rand : ℕ → ℚ) (intensity : ℚ) (data : List ℕ) : List ℕ :=
  grainLoop rand (intensity * 2.55) 0 data

/-! ## The render background step (source function render) -/

/-- A canvas or bitmap at integer resolution: a width, a height and a total
pixel function (only values at coordinates below the bounds are meaningful). -/
structure Canvas (α : Type) where
  width : ℕ
  height : ℕ
  pix : ℕ → ℕ → α

@[simp] theorem Canvas.pix_mk {α : Type} (w h : ℕ) (f : ℕ → ℕ → α) :
    (Canvas.mk w h f).pix = f := rfl

@[simp] theorem Canvas.width_mk {α : Type} (w h : ℕ) (f : ℕ → ℕ → α) :
    (Canvas.mk w h f).width = w := rfl

@[simp] theorem Canvas.height_mk {α : Type} (w h : ℕ) (f : ℕ → ℕ → α) :
    (Canvas.mk w h f).height = h := rfl

/-- The nine-argument ctx.drawImage: copy the source rectangle
(sx, sy, sw, sh) onto the destination rectangle (dx, dy, dw, dh), resampling
modelled as nearest-neighbour (exact for the 1:1 and one-pixel-strip copies
the render path performs). -/
def drawImage {α : Type} (dst src : Canvas α) (sx sy sw sh dx dy dw dh : ℕ) : Canvas α :=
  Canvas.mk dst.width dst.height fun x y =>
    if dx ≤ x ∧ x < dx + dw ∧ dy ≤ y ∧ y < dy + dh then
      src.pix (sx + (x - dx) * sw / dw) (sy + (y - dy) * sh / dh)
    else dst.pix x y

/-- The five-argument ctx.drawImage: the whole source scaled onto the
destination rectangle. -/
def drawImageScaled {α : Type} (dst src : Canvas α) (dx dy dw dh : ℕ) : Canvas α :=
  drawImage dst src 0 0 src.width src.height dx dy dw dh

/-- The offscreen padded surface the blur path builds: resize (which clears the
canvas to blank), draw the image in the centre, stretch the four one-pixel edge
strips over the padding bands, and fill the four corners from the corner
pixels, in source order. -/
def padSurface {α : Type} (original : Canvas α) (blank : α) (w h pad : ℕ) : Canvas α :=
  let c0 : Canvas α := Canvas.mk (w + 2 * pad) (h + 2 * pad) fun _ _ => blank
  let c1 := drawImageScaled c0 original pad pad w h
  let c2 := drawImage c1 original 0 0 w 1 pad 0 w pad
  let c3 := drawImage c2 original 0 (h - 1) w 1 pad (h + pad) w pad
  let c4 := drawImage c3 original 0 0 1 h 0 pad pad h
  let c5 := drawImage c4 original (w - 1) 0 1 h (w + pad) pad pad h
  let c6 := drawImage c5 original 0 0 1 1 0 0 pad pad
  let c7 := drawImage c6 original (w - 1) 0 1 1 (w + pad) 0 pad pad
  let c8 := drawImage c7 original 0 (h - 1) 1 1 0 (h + pad) pad pad
  drawImage c8 original (w - 1) (h - 1) 1 1 (w + pad) (h + pad) pad pad

/-- The background layer of the render pipeline on a main canvas of size w by
h.  blurOp abstracts the CSS blur filter: given the radius and the source
canvas it yields the filtered pixel function.  When a cutout is present and
the blur amount is positive the padded surface is built with
pad = min (blur * 3) 100, blurred, and drawn at offset (-pad, -pad); otherwise
the original image is drawn directly. -/
def renderBackground {α : Type} (blurOp : ℕ → Canvas α → ℕ → ℕ → α)
    (original : Canvas α) (blank : α) (w h : ℕ) (hasCutout : Bool) (blurAmount : ℕ) :
    Canvas α :=
  let base : Canvas α := Canvas.mk w h fun _ _ => blank
  if hasCutout = true ∧ 0 < blurAmount then
    let pad := min (blurAmount * 3) 100
    let off := padSurface original blank w h pad
    Canvas.mk w h fun x y =>
      if x + pad < w + 2 * pad ∧ y + pad < h + 2 * pad then
        blurOp blurAmount off (x + pad) (y + pad)
      else base.pix x y
  else
    drawImageScaled base original 0 0 w h

/-! ## The editor controller -/

/-- One composited frame drawn by the render function: the image that was the
base layer, the cutout composited on top (if any), and the slider values used. -/
structure RenderRec where
  image : ℕ
  cutout : Option ℕ
  blur : ℕ
  grain : ℕ
deriving DecidableEq, Repr

/-- The mutable module state of the script together with observation fields.
pendingDecodes are images whose onload has not fired yet, pendingFetches are
background-removal requests whose fetch promise chain has not settled, and
pendingMaskLoads are received cutout images whose onload has not fired yet;
each is tagged by the file that produced it. -/
structure EditorState where
  originalImage : Option ℕ
  maskImage : Option ℕ
  isProcessing : Bool
  currentFile : Option ℕ
  blurVal : ℕ
  grainVal : ℕ
  blurDisabled : Bool
  grainDisabled : Bool
  downloadDisabled : Bool
  loadingShown : Bool
  pendingDecodes : List ℕ
  pendingFetches : List ℕ
  pendingMaskLoads : List ℕ
  alerts : ℕ
  requestsIssued : ℕ
  renderLog : List RenderRec
deriving DecidableEq, Repr

/-- The discrete events the controller reacts to.  selectFile is the
synchronous part of handleFile (the Boolean says whether the MIME type starts
with image/); decodeDone is the onload of the created Image; the two slider
inputs carry the new slider value; fetchResolve, fetchReject and maskLoad are
the settlement points of a background-removal request. -/
inductive Event where
  | selectFile (f : ℕ) (isImage : Bool)
  | decodeDone (f : ℕ)
  | blurInput (v : ℕ)
  | grainInput (v : ℕ)
  | fetchResolve (f : ℕ)
  | fetchReject (f : ℕ)
  | maskLoad (f : ℕ)
deriving DecidableEq, Repr

/-- Source function setLoading. -/
def setLoading (isLoading : Bool) (s : EditorState) : EditorState :=
  { s with loadingShown := isLoading, blurDisabled := isLoading,
           grainDisabled := isLoading, downloadDisabled := isLoading }

/-- Source function enableControls. -/
def enableControls (s : EditorState) : EditorState :=
  { s with blurDisabled := false, grainDisabled := false, downloadDisabled := false }

/-- Source function render, which the controller observes only through the
frame it composites: when an image is loaded, append the composited frame
(base image, current cutout, slider values) to the render log. -/
def renderStep (s : EditorState) : EditorState :=
  match s.originalImage with
  | none => s
  | some img => { s with renderLog := s.renderLog ++ [RenderRec.mk img s.maskImage s.blurVal s.grainVal] }

/-- The synchronous part of source function handleFile: a non-image file only
raises an alert; an image file becomes the current file, the mask is reset,
the processing flag is cleared, and an image decode is started. -/
def handleFile (f : ℕ) (isImage : Bool) (s : EditorState) : EditorState :=
  if isImage = true then
    { s with currentFile := some f, maskImage := none, isProcessing := false,
             pendingDecodes := f :: s.pendingDecodes }
  else
    { s with alerts := s.alerts + 1 }

/-- The onload callback inside handleFile: install the decoded image, enable
the controls, and reset both sliders to zero. -/
def imageLoaded (f : ℕ) (s : EditorState) : EditorState :=
  if f ∈ s.pendingDecodes then
    let s1 := enableControls { s with originalImage := some f,
                                      pendingDecodes := s.pendingDecodes.erase f }
    { s1 with blurVal := 0, grainVal := 0 }
  else s

/-- The synchronous prefix of source function removeBackground: re-entrancy
guard on the processing flag, then set it, show the loading overlay with all
controls disabled, and issue the fetch for the given file. -/
def removeBackground (file : Option ℕ) (s : EditorState) : EditorState :=
  if s.isProcessing = true then s
  else
    let s1 := setLoading true { s with isProcessing := true }
    match file with
    | some f => { s1 with pendingFetches := f :: s1.pendingFetches,
                          requestsIssued := s1.requestsIssued + 1 }
    | none => s1

/-- The blur slider input handler: render, then trigger background removal
when the new value is positive, no cutout is stored, nothing is processing and
a file is selected. -/
def blurInputStep (v : ℕ) (s : EditorState) : EditorState :=
  let s1 := renderStep { s with blurVal := v }
  if 0 < v ∧ s1.maskImage = none ∧ s1.isProcessing = false ∧ s1.currentFile.isSome = true then
    removeBackground s1.currentFile s1
  else s1

/-- The grain slider input handler: just render. -/
def grainInputStep (v : ℕ) (s : EditorState) : EditorState :=
  renderStep { s with grainVal := v }

/-- Successful settlement of the fetch and blob promises of the request for
file f: the received cutout is stored in maskImage at once and its image load
begins.  The source performs no check that f is still the current file. -/
def fetchResolved (f : ℕ) (s : EditorState) : EditorState :=
  if f ∈ s.pendingFetches then
    { s with pendingFetches := s.pendingFetches.erase f, maskImage := some f,
             pendingMaskLoads := f :: s.pendingMaskLoads }
  else s

/-- The catch block of removeBackground: alert, clear the processing flag,
hide the loading overlay re-enabling the controls. -/
def fetchRejected (f : ℕ) (s : EditorState) : EditorState :=
  if f ∈ s.pendingFetches then
    setLoading false { s with pendingFetches := s.pendingFetches.erase f,
                              isProcessing := false, alerts := s.alerts + 1 }
  else s

/-- The onload of the received cutout image: clear the processing flag, hide
the loading overlay, render. -/
def maskLoaded (f : ℕ) (s : EditorState) : EditorState :=
  if f ∈ s.pendingMaskLoads then
    renderStep (setLoading false { s with pendingMaskLoads := s.pendingMaskLoads.erase f,
                                          isProcessing := false })
  else s

/-- The deterministic event step of the controller. -/
def step (s : EditorState) (e : Event) : EditorState :=
  match e with
  | Event.selectFile f isImage => handleFile f isImage s
  | Event.decodeDone f => imageLoaded f s
  | Event.blurInput v => blurInputStep v s
  | Event.grainInput v => grainInputStep v s
  | Event.fetchResolve f => fetchResolved f s
  | Event.fetchReject f => fetchRejected f s
  | Event.maskLoad f => maskLoaded f s

/-- Run a trace of events from a state. -/
def run (s : EditorState) (es : List Event) : EditorState :=
  es.foldl step s

/-- The initial module state of the script: nothing loaded, nothing pending. -/
def initState : EditorState :=
  { originalImage := none, maskImage := none, isProcessing := false, currentFile := none,
    blurVal := 0, grainVal := 0, blurDisabled := false, grainDisabled := false,
    downloadDisabled := false, loadingShown := false, pendingDecodes := [],
    pendingFetches := [], pendingMaskLoads := [], alerts := 0, requestsIssued := 0,
    renderLog := [] }

/-- Number of background-removal requests whose promise chain has not finished:
unsettled fetches plus received cutouts still loading. -/
def inFlight (s : EditorState) : ℕ :=
  s.pendingFetches.length + s.pendingMaskLoads.length

/-- Traces in which no image file is selected while a background-removal
request is still unfinished. -/
def goodFrom : EditorState → List Event → Bool
  | _, [] => true
  | s, e :: es =>
    (match e with
     | Event.selectFile _ true => inFlight s == 0
     | _ => true) && goodFrom (step s e) es

/-- Modelled from the spec: the only condition under which a removal request
is triggered is a blur slider input whose value is positive while no cutout is
stored, nothing is processing and a file is selected. -/
def removalRequestCondition (s : EditorState) (e : Event) : Bool :=
  match e with
  | Event.blurInput v => decide (0 < v) && s.maskImage.isNone && (!s.isProcessing) && s.currentFile.isSome
  | _ => false

/-! ## Controller lemmas -/

@[simp] theorem renderStep_maskImage (s : EditorState) : (renderStep s).maskImage = s.maskImage := by
  unfold renderStep; cases s.originalImage <;> rfl

@[simp] theorem renderStep_isProcessing (s : EditorState) :
    (renderStep s).isProcessing = s.isProcessing := by
  unfold renderStep; cases s.originalImage <;> rfl

@[simp] theorem renderStep_currentFile (s : EditorState) :
    (renderStep s).currentFile = s.currentFile := by
  unfold renderStep; cases s.originalImage <;> rfl

@[simp] theorem renderStep_requestsIssued (s : EditorState) :
    (renderStep s).requestsIssued = s.requestsIssued := by
  unfold renderStep; cases s.originalImage <;> rfl

@[simp] theorem renderStep_pendingFetches (s : EditorState) :
    (renderStep s).pendingFetches = s.pendingFetches := by
  unfold renderStep; cases s.originalImage <;> rfl

@[simp] theorem renderStep_pendingMaskLoads (s : EditorState) :
    (renderStep s).pendingMaskLoads = s.pendingMaskLoads := by
  unfold renderStep; cases s.originalImage <;> rfl

@[simp] theorem renderStep_blurVal (s : EditorState) : (renderStep s).blurVal = s.blurVal := by
  unfold renderStep; cases s.originalImage <;> rfl

@[simp] theorem renderStep_grainVal (s : EditorState) : (renderStep s).grainVal = s.grainVal := by
  unfold renderStep; cases s.originalImage <;> rfl

@[simp] theorem inFlight_renderStep (s : EditorState) : inFlight (renderStep s) = inFlight s := by
  unfold inFlight; simp

/-- The state invariant that the processing flag enforces in executions
without an interfering re-upload: at most one removal request is unfinished,
and none is when the processing flag is clear. -/
def MutexInv (s : EditorState) : Prop :=
  inFlight s ≤ 1 ∧ (s.isProcessing = false → inFlight s = 0)

theorem step_preserves_mutexInv (s : EditorState) (e : Event) (h : MutexInv s)
    (hsel : ∀ f, e = Event.selectFile f true → inFlight s = 0) :
    MutexInv (step s e) := by
  obtain ⟨h1, h2⟩ := h
  simp only [MutexInv, inFlight] at h1 h2 ⊢
  cases e with
  | selectFile f isImage =>
    cases isImage with
    | false =>
      refine ⟨?_, ?_⟩
      · simpa [step, handleFile] using h1
      · simpa [step, handleFile] using h2
    | true =>
      have h0 : s.pendingFetches.length + s.pendingMaskLoads.length = 0 := by
        have := hsel f rfl
        simpa [inFlight] using this
      refine ⟨?_, ?_⟩
      · simpa [step, handleFile] using h1
      · intro _
        simpa [step, handleFile] using h0
  | decodeDone f =>
    simp only [step, imageLoaded]
    split
    · refine ⟨?_, ?_⟩
      · simpa [enableControls] using h1
      · simpa [enableControls] using h2
    · exact ⟨h1, h2⟩
  | blurInput v =>
    simp only [step, blurInputStep]
    split
    · next hcond =>
      have hproc : s.isProcessing = false := by
        have := hcond.2.2.1
        simpa using this
      have h0 := h2 hproc
      unfold removeBackground
      rw [if_neg (by simp [hproc])]
      rcases hcf : s.currentFile with _ | f
      · have := hcond.2.2.2
        simp [hcf] at this
      · refine ⟨?_, ?_⟩
        · simp [setLoading]; omega
        · intro hfalse; simp [setLoading] at hfalse
    · refine ⟨?_, ?_⟩
      · simpa using h1
      · simpa using h2
  | grainInput v =>
    refine ⟨?_, ?_⟩
    · simpa [step, grainInputStep] using h1
    · simpa [step, grainInputStep] using h2
  | fetchResolve f =>
    simp only [step, fetchResolved]
    split
    · next hmem =>
      have hlen := List.length_erase_of_mem hmem
      have hpos := List.length_pos_of_mem hmem
      have hproc : s.isProcessing = true := by
        cases hb : s.isProcessing with
        | true => rfl
        | false => exact absurd (h2 hb) (by omega)
      refine ⟨?_, ?_⟩
      · simp only [hlen]
        simp
        omega
      · intro hfalse
        simp [hproc] at hfalse
    · exact ⟨h1, h2⟩
  | fetchReject f =>
    simp only [step, fetchRejected]
    split
    · next hmem =>
      have hlen := List.length_erase_of_mem hmem
      have hpos := List.length_pos_of_mem hmem
      refine ⟨?_, ?_⟩
      · simp [setLoading, hlen]; omega
      · intro _
        simp only [setLoading]
        rw [hlen]
        omega
    · exact ⟨h1, h2⟩
  | maskLoad f =>
    simp only [step, maskLoaded]
    split
    · next hmem =>
      have hlen := List.length_erase_of_mem hmem
      have hpos := List.length_pos_of_mem hmem
      refine ⟨?_, ?_⟩
      · simp [setLoading, hlen]; omega
      · intro _
        simp only [renderStep_pendingFetches, renderStep_pendingMaskLoads, setLoading]
        rw [hlen]
        omega
    · exact ⟨h1, h2⟩

theorem run_preserves_mutexInv :
    ∀ (es : List Event) (s : EditorState), MutexInv s → goodFrom s es = true →
      MutexInv (run s es)
  | [], s, h, _ => h
  | e :: es, s, h, hg => by
    have hg2 : goodFrom (step s e) es = true := by
      unfold goodFrom at hg
      exact (Bool.and_eq_true _ _ |>.mp hg).2
    have hsel : ∀ f, e = Event.selectFile f true → inFlight s = 0 := by
      intro f he
      subst he
      unfold goodFrom at hg
      have := (Bool.and_eq_true _ _ |>.mp hg).1
      simpa using this
    exact run_preserves_mutexInv es (step s e) (step_preserves_mutexInv s e h hsel) hg2

/-! ## Claims about the controller -/

/-- An execution in which the removal request for image 0 is still unresolved
when image 1 is uploaded and decoded, and only then resolves and loads. -/
def staleTrace : List Event :=
  [Event.selectFile 0 true, Event.decodeDone 0, Event.blurInput 5,
   Event.selectFile 1 true, Event.decodeDone 1, Event.fetchResolve 0, Event.maskLoad 0]

/-- C1: the code contradicts the claim.  In the execution staleTrace a new
source image (file 1) is installed while the removal request issued for the
previous image (file 0) is unresolved; when that superseded request resolves,
its result is stored as the current cutout (maskImage = some 0 although the
current file is 1) and is drawn into a render of the new image (the frame
with base image 1 and cutout 0 is in the render log).  The source has no
check that the promise target is still the current image. -/
theorem stale_cutout_applied_after_new_upload :
    (run initState staleTrace).currentFile = some 1 ∧
    (run initState staleTrace).originalImage = some 1 ∧
    (run initState staleTrace).maskImage = some 0 ∧
    RenderRec.mk 1 (some 0) 0 0 ∈ (run initState staleTrace).renderLog := by
  decide

/-- An execution with a second upload while a request is in flight, followed
by a qualifying blur input for the new image. -/
def doubleTrace : List Event :=
  [Event.selectFile 0 true, Event.decodeDone 0, Event.blurInput 5,
   Event.selectFile 1 true, Event.decodeDone 1, Event.blurInput 5]

/-- C2 counterexample: the claim that at most one removal request is ever in
flight is false.  After doubleTrace the unresolved fetches for files 0 and 1
are simultaneously outstanding, because handleFile resets the processing flag
while the first request is still pending. -/
theorem two_requests_in_flight_counterexample :
    ¬ inFlight (run initState doubleTrace) ≤ 1 := by
  decide

/-- C2 amended: in every execution in which no image file is selected while a
removal request is unfinished, at most one removal request is in flight at
every point, and none is whenever the processing flag is clear — the
processing flag is the mutual-exclusion device.  (A new upload while a
request is outstanding resets the flag, after which a qualifying blur input
can start a second concurrent request, as the counterexample shows.) -/
theorem at_most_one_request_in_flight_without_reupload (es : List Event)
    (hg : goodFrom initState es = true) :
    inFlight (run initState es) ≤ 1 ∧
      ((run initState es).isProcessing = false → inFlight (run initState es) = 0) := by
  have hinit : MutexInv initState := by
    constructor <;> simp [MutexInv, inFlight, initState]
  exact run_preserves_mutexInv es initState hinit hg

/-- Witness for the amended C2 theorem on a concrete well-formed execution. -/
theorem at_most_one_request_in_flight_without_reupload_witness :
    goodFrom initState [Event.selectFile 0 true, Event.decodeDone 0, Event.blurInput 5] = true ∧
      inFlight (run initState [Event.selectFile 0 true, Event.decodeDone 0, Event.blurInput 5]) ≤ 1 :=
  ⟨by decide,
   (at_most_one_request_in_flight_without_reupload
     [Event.selectFile 0 true, Event.decodeDone 0, Event.blurInput 5] (by decide)).1⟩

/-- C3: a background-removal request is issued by an event exactly when it is
a blur slider input whose value is positive while no cutout is stored, the
processing flag is clear and a file is selected; a qualifying blur input
issues exactly one request, and every other event (grain input, upload,
decode, request settlement) issues none. -/
theorem removal_request_iff_qualifying_blur_input (s : EditorState) (e : Event) :
    (step s e).requestsIssued =
      s.requestsIssued + (if removalRequestCondition s e = true then 1 else 0) := by
  cases e with
  | selectFile f isImage =>
    cases isImage <;> simp [step, handleFile, removalRequestCondition]
  | decodeDone f =>
    simp only [step, imageLoaded, removalRequestCondition]
    split <;> simp [enableControls]
  | blurInput v =>
    rcases hcf : s.currentFile with _ | f
    · simp only [step, blurInputStep, removalRequestCondition]
      split
      · next hcond =>
        exfalso
        have := hcond.2.2.2
        simp [hcf] at this
      · simp [hcf]
    · simp only [step, blurInputStep, removalRequestCondition]
      split
      · next hcond =>
        obtain ⟨hv, hmask, hproc, -⟩ := hcond
        have hm : s.maskImage = none := by simpa using hmask
        have hp : s.isProcessing = false := by simpa using hproc
        unfold removeBackground
        rw [if_neg (by simp [hp])]
        simp [setLoading, hv, hm, hp, hcf]
      · next hcond =>
        have hnc : ¬ ((decide (0 < v) && s.maskImage.isNone && !s.isProcessing
            && s.currentFile.isSome) = true) := by
          intro hb
          simp only [Bool.and_eq_true, decide_eq_true_eq, Option.isNone_iff_eq_none,
            Bool.not_eq_true'] at hb
          exact hcond ⟨hb.1.1.1, by simp [hb.1.1.2], by simp [hb.1.2], by simp [hcf]⟩
        rw [if_neg hnc]
        simp
  | grainInput v =>
    simp [step, grainInputStep, removalRequestCondition]
  | fetchResolve f =>
    simp only [step, fetchResolved, removalRequestCondition]
    split <;> simp
  | fetchReject f =>
    simp only [step, fetchRejected, removalRequestCondition]
    split <;> simp [setLoading]
  | maskLoad f =>
    simp only [step, maskLoaded, removalRequestCondition]
    split <;> simp [setLoading]

/-- C8: after a successful upload — the synchronous part of handleFile for an
image file followed by the completion of its decode — both sliders are zero,
no cutout is stored, and the blur, grain and download controls are all
enabled, from any prior state. -/
theorem upload_resets_state (s : EditorState) (f : ℕ) :
    (run s [Event.selectFile f true, Event.decodeDone f]).blurVal = 0 ∧
    (run s [Event.selectFile f true, Event.decodeDone f]).grainVal = 0 ∧
    (run s [Event.selectFile f true, Event.decodeDone f]).maskImage = none ∧
    (run s [Event.selectFile f true, Event.decodeDone f]).blurDisabled = false ∧
    (run s [Event.selectFile f true, Event.decodeDone f]).grainDisabled = false ∧
    (run s [Event.selectFile f true, Event.decodeDone f]).downloadDisabled = false ∧
    (run s [Event.selectFile f true, Event.decodeDone f]).originalImage = some f ∧
    (run s [Event.selectFile f true, Event.decodeDone f]).currentFile = some f := by
  simp [run, step, handleFile, imageLoaded, enableControls, List.mem_cons]

/-- C9: when a background-removal request fails, the controller raises exactly
one user-visible notice, clears the processing flag, hides the loading overlay
and re-enables every control, and leaves the stored cutout, the current file,
the installed image and both slider values unchanged; in particular if no
cutout was stored none is stored afterwards. -/
theorem fetch_failure_restores_ready (s : EditorState) (f : ℕ)
    (hf : f ∈ s.pendingFetches) :
    (step s (Event.fetchReject f)).alerts = s.alerts + 1 ∧
    (step s (Event.fetchReject f)).isProcessing = false ∧
    (step s (Event.fetchReject f)).loadingShown = false ∧
    (step s (Event.fetchReject f)).blurDisabled = false ∧
    (step s (Event.fetchReject f)).grainDisabled = false ∧
    (step s (Event.fetchReject f)).downloadDisabled = false ∧
    (step s (Event.fetchReject f)).maskImage = s.maskImage ∧
    (step s (Event.fetchReject f)).currentFile = s.currentFile ∧
    (step s (Event.fetchReject f)).originalImage = s.originalImage ∧
    (step s (Event.fetchReject f)).blurVal = s.blurVal ∧
    (step s (Event.fetchReject f)).grainVal = s.grainVal := by
  simp [step, fetchRejected, setLoading, hf]

/-- Witness for the failure-path theorem on the concrete state reached after
uploading a file and raising the blur slider. -/
theorem fetch_failure_restores_ready_witness :
    0 ∈ (run initState [Event.selectFile 0 true, Event.decodeDone 0, Event.blurInput 5]).pendingFetches ∧
      (step (run initState [Event.selectFile 0 true, Event.decodeDone 0, Event.blurInput 5])
          (Event.fetchReject 0)).isProcessing = false :=
  ⟨by decide,
   (fetch_failure_restores_ready
     (run initState [Event.selectFile 0 true, Event.decodeDone 0, Event.blurInput 5]) 0
     (by decide)).2.1⟩

/-! ## Claims about the render background step -/

theorem samp_zero (t d : ℕ) (h : t < d) : t * 1 / d = 0 := by
  rw [Nat.mul_one]
  exact Nat.div_eq_of_lt h

theorem samp_id (t d : ℕ) (hd : 0 < d) : t * d / d = t :=
  Nat.mul_div_cancel t hd

set_option maxHeartbeats 1000000 in
/-- The padded offscreen surface equals the edge-clamped extension of the
source: every pixel of the padded surface is the source pixel at the
coordinates clamped into the source rectangle (Nat subtraction clamps below
at 0, min clamps above at the last row or column). -/
theorem padSurface_spec {α : Type} (original : Canvas α) (blank : α) (w h pad : ℕ)
    (hw : 0 < w) (hh : 0 < h) (hcw : original.width = w) (hch : original.height = h) :
    ∀ x < w + 2 * pad, ∀ y < h + 2 * pad,
      (padSurface original blank w h pad).pix x y =
        original.pix (min (x - pad) (w - 1)) (min (y - pad) (h - 1)) := by
  intro x hx y hy
  simp only [padSurface, drawImageScaled, drawImage, hcw, hch, Canvas.pix_mk,
    Canvas.width_mk, Canvas.height_mk]
  split_ifs with h9 h8 h7 h6 h5 h4 h3 h2 h1
  · rw [samp_zero _ _ (by omega), samp_zero _ _ (by omega)]
    congr 1 <;> omega
  · rw [samp_zero _ _ (by omega), samp_zero _ _ (by omega)]
    congr 1 <;> omega
  · rw [samp_zero _ _ (by omega), samp_zero _ _ (by omega)]
    congr 1 <;> omega
  · rw [samp_zero _ _ (by omega), samp_zero _ _ (by omega)]
    congr 1 <;> omega
  · rw [samp_zero _ _ (by omega), samp_id _ _ hh]
    congr 1 <;> omega
  · rw [samp_zero _ _ (by omega), samp_id _ _ hh]
    congr 1 <;> omega
  · rw [samp_id _ _ hw, samp_zero _ _ (by omega)]
    congr 1 <;> omega
  · rw [samp_id _ _ hw, samp_zero _ _ (by omega)]
    congr 1 <;> omega
  · rw [samp_id _ _ hw, samp_id _ _ hh]
    congr 1 <;> omega
  · exfalso
    omega

/-- C4: with a cutout present and a positive blur amount, the render builds a
working surface padded by min (blur * 3) 100 pixels a side whose content is
the source with its outermost rows, columns and corner pixels stretched over
the padding (the edge-clamped extension), applies the abstract blur operator
to that padded surface, and produces each on-canvas pixel by sampling the
blurred surface at the offset (pad, pad) — the crop ctx.drawImage at
(-pad, -pad).  Stated at display resolution, where the source dimensions
equal the canvas dimensions. -/
theorem render_blur_pads_clamps_and_crops {α : Type}
    (blurOp : ℕ → Canvas α → ℕ → ℕ → α) (original : Canvas α) (blank : α) (w h b : ℕ)
    (hw : 0 < w) (hh : 0 < h) (hcw : original.width = w) (hch : original.height = h)
    (hb : 0 < b) :
    (∀ x < w + 2 * min (b * 3) 100, ∀ y < h + 2 * min (b * 3) 100,
      (padSurface original blank w h (min (b * 3) 100)).pix x y =
        original.pix (min (x - min (b * 3) 100) (w - 1)) (min (y - min (b * 3) 100) (h - 1))) ∧
    (∀ x < w, ∀ y < h,
      (renderBackground blurOp original blank w h true b).pix x y =
        blurOp b (padSurface original blank w h (min (b * 3) 100))
          (x + min (b * 3) 100) (y + min (b * 3) 100)) := by
  refine ⟨padSurface_spec original blank w h (min (b * 3) 100) hw hh hcw hch, ?_⟩
  intro x hx y hy
  simp only [renderBackground]
  rw [if_pos (by simp [hb])]
  simp only [Canvas.pix_mk]
  rw [if_pos (by constructor <;> omega)]

/-- A concrete blur operator (identity on the pixel function) for witnesses. -/
def rbOp : ℕ → Canvas ℕ → ℕ → ℕ → ℕ := fun _ c u t => c.pix u t

/-- A second concrete blur operator (constant one) for witnesses. -/
def rbOp2 : ℕ → Canvas ℕ → ℕ → ℕ → ℕ := fun _ _ _ _ => 1

/-- A concrete two-by-two image for witnesses. -/
def rbImg : Canvas ℕ := Canvas.mk 2 2 fun x y => 10 * x + y

/-- Witness for the padded-blur theorem on a concrete two-by-two image with
blur amount 1 and a concrete blur operator. -/
theorem render_blur_pads_clamps_and_crops_witness :
    ((0 : ℕ) < 2 ∧ (0 : ℕ) < 1) ∧
      (renderBackground rbOp rbImg 0 2 2 true 1).pix 0 0 =
        rbOp 1 (padSurface rbImg 0 2 2 (min (1 * 3) 100))
          (0 + min (1 * 3) 100) (0 + min (1 * 3) 100) :=
  ⟨⟨by decide, by decide⟩,
   (render_blur_pads_clamps_and_crops rbOp rbImg 0 2 2 1
     (by decide) (by decide) rfl rfl (by decide)).2 0 (by decide) 0 (by decide)⟩

/-- C5: for every radius the background layer drawn on the main canvas has
exactly the canvas dimensions, and radius zero takes the unblurred branch:
the drawn background is pixel-identical to the source image and the result
does not depend on the blur operator at all.  Stated at display resolution,
where the source dimensions equal the canvas dimensions. -/
theorem renderBackground_dims_and_zero_radius_identity {α : Type}
    (blurOp blurOp2 : ℕ → Canvas α → ℕ → ℕ → α) (original : Canvas α) (blank : α)
    (w h : ℕ) (hasCutout : Bool) (r : ℕ)
    (hcw : original.width = w) (hch : original.height = h) :
    (renderBackground blurOp original blank w h hasCutout r).width = w ∧
    (renderBackground blurOp original blank w h hasCutout r).height = h ∧
    (r = 0 →
      (∀ x < w, ∀ y < h,
        (renderBackground blurOp original blank w h hasCutout r).pix x y = original.pix x y) ∧
      renderBackground blurOp original blank w h hasCutout r =
        renderBackground blurOp2 original blank w h hasCutout r) := by
  refine ⟨?_, ?_, ?_⟩
  · unfold renderBackground
    split <;> simp [drawImageScaled, drawImage]
  · unfold renderBackground
    split <;> simp [drawImageScaled, drawImage]
  · rintro rfl
    constructor
    · intro x hx y hy
      have hw : 0 < w := by omega
      have hh : 0 < h := by omega
      unfold renderBackground
      rw [if_neg (by simp)]
      simp only [drawImageScaled, drawImage, Canvas.pix_mk, Canvas.width_mk, hcw, hch]
      rw [if_pos (by omega)]
      congr 1
      · rw [Nat.sub_zero, samp_id x w hw, Nat.zero_add]
      · rw [Nat.sub_zero, samp_id y h hh, Nat.zero_add]
    · unfold renderBackground
      rw [if_neg (by simp), if_neg (by simp)]

/-- Witness for the dimension and zero-radius theorem on a concrete
two-by-two image and two distinct blur operators. -/
theorem renderBackground_dims_and_zero_radius_identity_witness :
    rbImg.width = 2 ∧ (renderBackground rbOp rbImg 9 2 2 true 0).width = 2 :=
  ⟨rfl,
   (renderBackground_dims_and_zero_radius_identity rbOp rbOp2 rbImg 9 2 2 true 0 rfl rfl).1⟩

/-! ## Claims about the grain pass -/

theorem grainLoop_getElem (rand : ℕ → ℚ) (s : ℚ) :
    ∀ (data : List ℕ) (n j : ℕ), data.length % 4 = 0 →
      (grainLoop rand s n data)[j]? =
        if j % 4 = 3 then data[j]?
        else (data[j]?).map fun v : ℕ => toUint8Clamped ((v : ℚ) + (rand (n + j / 4) - 1/2) * s)
  | [], n, j, _ => by
    have hnil : grainLoop rand s n [] = [] := rfl
    rw [hnil]
    split <;> simp
  | [r], _, _, hlen => by simp at hlen
  | [r, g], _, _, hlen => by simp at hlen
  | [r, g, b], _, _, hlen => by simp at hlen
  | r :: g :: b :: a :: rest, n, 0, hlen => by
    simp [grainLoop]
  | r :: g :: b :: a :: rest, n, 1, hlen => by
    simp [grainLoop]
  | r :: g :: b :: a :: rest, n, 2, hlen => by
    simp [grainLoop]
  | r :: g :: b :: a :: rest, n, 3, hlen => by
    simp [grainLoop]
  | r :: g :: b :: a :: rest, n, j + 4, hlen => by
    have hrest : rest.length % 4 = 0 := by
      simp only [List.length_cons] at hlen
      omega
    simp only [grainLoop]
    rw [show j + 4 = j + 1 + 1 + 1 + 1 by omega]
    simp only [List.getElem?_cons_succ]
    rw [grainLoop_getElem rand s rest (n + 1) j hrest]
    rw [show (j + 1 + 1 + 1 + 1) % 4 = j % 4 by omega,
        show n + (j + 1 + 1 + 1 + 1) / 4 = n + 1 + j / 4 by omega]

theorem roundHalfEven_near (q : ℚ) : |(roundHalfEven q : ℚ) - q| ≤ 1/2 := by
  have h0 : (⌊q⌋ : ℚ) ≤ q := Int.floor_le q
  have h1 : q < ⌊q⌋ + 1 := Int.lt_floor_add_one q
  unfold roundHalfEven
  split_ifs with ha hb hc
  · rw [abs_le]; constructor <;> push_cast <;> linarith
  · rw [abs_le]
    push_cast
    constructor <;> linarith
  · push_neg at ha hb
    rw [abs_le]
    constructor <;> linarith
  · push_neg at ha hb
    rw [abs_le]
    push_cast
    constructor <;> linarith

theorem roundHalfEven_nonneg (q : ℚ) (hq : 0 ≤ q) : 0 ≤ roundHalfEven q := by
  have h0 : (0 : ℤ) ≤ ⌊q⌋ := Int.floor_nonneg.mpr hq
  unfold roundHalfEven
  split_ifs <;> omega

theorem roundHalfEven_lt_bound (q : ℚ) (z : ℤ) (hq : q < z) : roundHalfEven q ≤ z := by
  have h0 : ⌊q⌋ < z := Int.floor_lt.mpr hq
  unfold roundHalfEven
  split_ifs <;> omega

theorem toUint8Clamped_le_255 (q : ℚ) : toUint8Clamped q ≤ 255 := by
  unfold toUint8Clamped
  split_ifs with h1 h2
  · omega
  · omega
  · push_neg at h2
    have := roundHalfEven_lt_bound q 255 h2
    omega

theorem toUint8Clamped_sat_high (q : ℚ) (h : 255 ≤ q) : toUint8Clamped q = 255 := by
  unfold toUint8Clamped
  rw [if_neg (by push_neg; linarith), if_pos h]

theorem toUint8Clamped_sat_low (q : ℚ) (h : q ≤ 0) : toUint8Clamped q = 0 := by
  unfold toUint8Clamped
  rw [if_pos h]

theorem toUint8Clamped_near (q : ℚ) (h0 : 0 ≤ q) (h255 : q ≤ 255) :
    |(toUint8Clamped q : ℚ) - q| ≤ 1/2 := by
  unfold toUint8Clamped
  split_ifs with h1 h2
  · have hq : q = 0 := le_antisymm h1 h0
    rw [hq]
    norm_num
  · have hq : q = 255 := le_antisymm h255 h2
    rw [hq]
    norm_num
  · have hge : 0 ≤ roundHalfEven q := roundHalfEven_nonneg q h0
    have hcast : (((roundHalfEven q).toNat : ℕ) : ℚ) = ((roundHalfEven q : ℤ) : ℚ) := by
      exact_mod_cast congrArg (fun z : ℤ => (z : ℚ)) (Int.toNat_of_nonneg hge)
    rw [hcast]
    exact roundHalfEven_near q

theorem toUint8Clamped_coe (v : ℕ) (hv : v ≤ 255) : toUint8Clamped (v : ℚ) = v := by
  unfold toUint8Clamped
  split_ifs with h1 h2
  · have : v = 0 := by exact_mod_cast le_antisymm h1 (Nat.cast_nonneg v)
    omega
  · have : 255 ≤ v := by exact_mod_cast h2
    omega
  · have hfl : ⌊(v : ℚ)⌋ = (v : ℤ) := Int.floor_natCast v
    unfold roundHalfEven
    rw [hfl]
    have hz : (v : ℚ) - ((v : ℤ) : ℚ) = 0 := by push_cast; ring
    rw [hz]
    norm_num

theorem generateGrain_zero (rand : ℕ → ℚ) (data : List ℕ)
    (hlen : data.length % 4 = 0) (hwf : ∀ v ∈ data, v ≤ 255) :
    generateGrain rand 0 data = data := by
  apply List.ext_getElem?
  intro j
  unfold generateGrain
  rw [grainLoop_getElem rand (0 * 2.55) data 0 j hlen]
  split
  · rfl
  · rcases hj : data[j]? with _ | v
    · rfl
    · have hmem : v ∈ data := List.getElem?_mem hj
      have hval : (v : ℚ) + (rand (0 + j / 4) - 1/2) * (0 * 2.55) = (v : ℚ) := by ring
      simp only [Option.map_some']
      rw [hval, toUint8Clamped_coe v (hwf v hmem)]

/-- C6: the grain pass maps intensity g to strength g * 2.55, draws one noise
value per pixel lying in the closed interval from -strength/2 to strength/2,
adds that same scalar to the three colour channels of the pixel through the
clamped store, and is the identity on the buffer when g = 0. -/
theorem generateGrain_noise_model (rand : ℕ → ℚ) (g : ℚ) (data : List ℕ)
    (hr : ∀ k, 0 ≤ rand k ∧ rand k < 1) (hg : 0 ≤ g)
    (hlen : data.length % 4 = 0) (hwf : ∀ v ∈ data, v ≤ 255) :
    (∀ k, -(g * 2.55 / 2) ≤ noiseVal rand g k ∧ noiseVal rand g k ≤ g * 2.55 / 2) ∧
    (∀ k, 4 * k + 3 < data.length →
      (generateGrain rand g data)[4 * k]? =
          (data[4 * k]?).map (fun v : ℕ => toUint8Clamped ((v : ℚ) + noiseVal rand g k)) ∧
        (generateGrain rand g data)[4 * k + 1]? =
          (data[4 * k + 1]?).map (fun v : ℕ => toUint8Clamped ((v : ℚ) + noiseVal rand g k)) ∧
        (generateGrain rand g data)[4 * k + 2]? =
          (data[4 * k + 2]?).map (fun v : ℕ => toUint8Clamped ((v : ℚ) + noiseVal rand g k))) ∧
    (g = 0 → generateGrain rand g data = data) := by
  have hs : 0 ≤ g * 2.55 := mul_nonneg hg (by norm_num)
  refine ⟨?_, ?_, ?_⟩
  · intro k
    obtain ⟨hk0, hk1⟩ := hr k
    constructor
    · have := mul_le_mul_of_nonneg_right (show -(1/2 : ℚ) ≤ rand k - 1/2 by linarith) hs
      unfold noiseVal
      linarith
    · have := mul_le_mul_of_nonneg_right (show rand k - 1/2 ≤ 1/2 by linarith) hs
      unfold noiseVal
      linarith
  · intro k hk
    unfold generateGrain noiseVal
    refine ⟨?_, ?_, ?_⟩
    · rw [grainLoop_getElem rand (g * 2.55) data 0 (4 * k) hlen,
        if_neg (by omega)]
      simp only [show 4 * k / 4 = k from by omega, Nat.zero_add]
    · rw [grainLoop_getElem rand (g * 2.55) data 0 (4 * k + 1) hlen,
        if_neg (by omega)]
      simp only [show (4 * k + 1) / 4 = k from by omega, Nat.zero_add]
    · rw [grainLoop_getElem rand (g * 2.55) data 0 (4 * k + 2) hlen,
        if_neg (by omega)]
      simp only [show (4 * k + 2) / 4 = k from by omega, Nat.zero_add]
  · rintro rfl
    exact generateGrain_zero rand data hlen hwf

/-- C7: the grain pass never writes an alpha entry: every position of the
buffer whose index is 3 modulo 4 is unchanged, for every intensity and every
random stream. -/
theorem generateGrain_preserves_alpha (rand : ℕ → ℚ) (g : ℚ) (data : List ℕ) (j : ℕ)
    (hlen : data.length % 4 = 0) (hj : j % 4 = 3) :
    (generateGrain rand g data)[j]? = data[j]? := by
  unfold generateGrain
  rw [grainLoop_getElem rand (g * 2.55) data 0 j hlen, if_pos hj]

/-- C10: each colour channel stored by the grain pass is the noise-added
value put through the clamped 8-bit store: the result never exceeds 255, a
value at least 255 saturates to exactly 255 and a value at most 0 to exactly
0 (no wraparound at either bound), and an in-range value is rounded to an
integer within one half of it. -/
theorem generateGrain_channels_clamped (rand : ℕ → ℚ) (g : ℚ) (data : List ℕ) (j : ℕ)
    (hlen : data.length % 4 = 0) (hjm : j % 4 ≠ 3) (hj : j < data.length) :
    ∃ v : ℕ, data[j]? = some v ∧
      (generateGrain rand g data)[j]? =
        some (toUint8Clamped ((v : ℚ) + noiseVal rand g (j / 4))) ∧
      toUint8Clamped ((v : ℚ) + noiseVal rand g (j / 4)) ≤ 255 ∧
      (255 ≤ (v : ℚ) + noiseVal rand g (j / 4) →
        toUint8Clamped ((v : ℚ) + noiseVal rand g (j / 4)) = 255) ∧
      ((v : ℚ) + noiseVal rand g (j / 4) ≤ 0 →
        toUint8Clamped ((v : ℚ) + noiseVal rand g (j / 4)) = 0) ∧
      (0 ≤ (v : ℚ) + noiseVal rand g (j / 4) → (v : ℚ) + noiseVal rand g (j / 4) ≤ 255 →
        |(toUint8Clamped ((v : ℚ) + noiseVal rand g (j / 4)) : ℚ) -
          ((v : ℚ) + noiseVal rand g (j / 4))| ≤ 1/2) := by
  refine ⟨data[j], List.getElem?_eq_getElem hj, ?_, toUint8Clamped_le_255 _,
    fun h => toUint8Clamped_sat_high _ h, fun h => toUint8Clamped_sat_low _ h,
    fun h0 h255 => toUint8Clamped_near _ h0 h255⟩
  unfold generateGrain noiseVal
  rw [grainLoop_getElem rand (g * 2.55) data 0 j hlen, if_neg hjm,
    List.getElem?_eq_getElem hj]
  simp only [Option.map_some', Nat.zero_add]

/-- A concrete random stream for witnesses. -/
def wRand : ℕ → ℚ := fun _ => 1/4

theorem wRand_range (k : ℕ) : 0 ≤ wRand k ∧ wRand k < 1 :=
  ⟨by norm_num [wRand], by norm_num [wRand]⟩

/-- A concrete one-pixel RGBA buffer for witnesses. -/
def wData : List ℕ := [100, 150, 200, 128]

/-- Witness for the grain noise-model theorem on a concrete buffer, stream
and intensity. -/
theorem generateGrain_noise_model_witness :
    wData.length % 4 = 0 ∧
      (generateGrain wRand 10 wData)[4 * 0]? =
        (wData[4 * 0]?).map fun v : ℕ => toUint8Clamped ((v : ℚ) + noiseVal wRand 10 0) :=
  ⟨by decide,
   ((generateGrain_noise_model wRand 10 wData wRand_range
       (by decide) (by decide) (by decide)).2.1 0 (by decide)).1⟩

/-- Witness for the alpha-preservation theorem on a concrete buffer. -/
theorem generateGrain_preserves_alpha_witness :
    wData.length % 4 = 0 ∧ (3 : ℕ) % 4 = 3 ∧
      (generateGrain wRand 7 wData)[3]? = wData[3]? :=
  ⟨by decide, by decide,
   generateGrain_preserves_alpha wRand 7 wData 3 (by decide) (by decide)⟩

/-- Witness for the clamped-channel theorem on a concrete buffer at the green
channel of the first pixel. -/
theorem generateGrain_channels_clamped_witness :
    (wData.length % 4 = 0 ∧ (1 : ℕ) % 4 ≠ 3 ∧ 1 < wData.length) ∧
      ∃ v : ℕ, wData[1]? = some v ∧
        (generateGrain wRand 10 wData)[1]? =
          some (toUint8Clamped ((v : ℚ) + noiseVal wRand 10 (1 / 4))) ∧
        toUint8Clamped ((v : ℚ) + noiseVal wRand 10 (1 / 4)) ≤ 255 ∧
        (255 ≤ (v : ℚ) + noiseVal wRand 10 (1 / 4) →
          toUint8Clamped ((v : ℚ) + noiseVal wRand 10 (1 / 4)) = 255) ∧
        ((v : ℚ) + noiseVal wRand 10 (1 / 4) ≤ 0 →
          toUint8Clamped ((v : ℚ) + noiseVal wRand 10 (1 / 4)) = 0) ∧
        (0 ≤ (v : ℚ) + noiseVal wRand 10 (1 / 4) → (v : ℚ) + noiseVal wRand 10 (1 / 4) ≤ 255 →
          |(toUint8Clamped ((v : ℚ) + noiseVal wRand 10 (1 / 4)) : ℚ) -
            ((v : ℚ) + noiseVal wRand 10 (1 / 4))| ≤ 1/2) :=
  ⟨⟨by decide, by decide, by decide⟩,
   generateGrain_channels_clamped wRand 10 wData 1 (by decide) (by decide) (by decide)⟩

end WebImageEditor
